import Mathlib

/-!
Verification of the `light-ini` event-driven INI parser (`src/lib.rs`).

Strings are modelled as `List Char` (one entry per Unicode scalar value).
Rust's `str::is_char_boundary(1)` on a non-empty string holds exactly when
the first scalar value is encoded in one UTF-8 byte, i.e. its code point is
below 128; that is how the byte-level check is reflected at scalar level.
The handler, mutably borrowed in Rust, is modelled by explicit state
passing: driver functions return the final handler state together with the
`Result` value (`none` for `Ok(())`, `some e` for `Err(e)`).
Input for `parse_buffered` is the stream of `BufRead::lines()` items: each
is either a line (terminator already stripped) or an I/O error.
-/

/-- Rust `char::is_whitespace`: the Unicode `White_Space` property. -/
def rustIsWhitespace (c : Char) : Bool :=
  c.toNat == 0x09 || c.toNat == 0x0A || c.toNat == 0x0B || c.toNat == 0x0C ||
  c.toNat == 0x0D || c.toNat == 0x20 || c.toNat == 0x85 || c.toNat == 0xA0 ||
  c.toNat == 0x1680 || (0x2000 ≤ c.toNat && c.toNat ≤ 0x200A) ||
  c.toNat == 0x2028 || c.toNat == 0x2029 || c.toNat == 0x202F ||
  c.toNat == 0x205F || c.toNat == 0x3000

/-- Rust `str::trim_start`: drop leading whitespace. -/
def trim_start (l : List Char) : List Char := l.dropWhile rustIsWhitespace

/-- Rust `str::trim_end`: drop trailing whitespace. -/
def trim_end (l : List Char) : List Char := (l.reverse.dropWhile rustIsWhitespace).reverse

/-- Rust `str::trim`: drop whitespace at both ends. -/
def trim (l : List Char) : List Char := trim_end (trim_start l)

/-- Rust `str::find(char)`: index of the first occurrence of `c`
(character index; at an occurrence of a char the byte index used by Rust is
a char boundary, so `split_at` there splits at the same place). -/
def findChar (c : Char) : List Char → Option Nat
  | [] => none
  | x :: xs => if x = c then some 0 else (findChar c xs).map (· + 1)

/-- Rust `str::is_char_boundary(1)`: on the (non-empty) trimmed line this
holds iff the first scalar value takes one UTF-8 byte. -/
def is_char_boundary_one : List Char → Bool
  | [] => false
  | c :: _ => decide (c.toNat < 128)

/-- `IniError<HandlerError>` from `src/lib.rs` (the `io::Error` payload is
not modelled). -/
inductive IniError (ε : Type) where
  | invalidLine (lineno : Nat)
  | handler (e : ε)
  | io
deriving DecidableEq

/-- The `IniHandler` trait: three callbacks over a handler state `σ` with
error type `ε` (`sec` is Rust's `section`, `opt` is Rust's `option`;
both are keywords in Lean). -/
structure IniHandler (σ : Type) (ε : Type) where
  sec : σ → List Char → Except ε σ
  opt : σ → List Char → List Char → Except ε σ
  comment : σ → List Char → Except ε σ

/-- The `IniParser` struct: a handler plus the start-of-comment character
(Rust stores the one-character `String` `format!("{}", start_comment)`;
comparing the one-byte-or-empty prefix with that string is equivalent to
the character comparison done here). -/
structure IniParser (σ : Type) (ε : Type) where
  handler : IniHandler σ ε
  start_comment : Char

/-- `IniParser::with_start_comment`. -/
def with_start_comment (h : IniHandler σ ε) (start_comment : Char) : IniParser σ ε :=
  ⟨h, start_comment⟩

/-- `IniParser::new`: default comment prefix character. -/
def IniParser.new (h : IniHandler σ ε) : IniParser σ ε :=
  with_start_comment h (Char.ofNat 59)

/-- `IniParser::parse_ini_line`: classify one line (trailing newline already
stripped) and dispatch to the handler. Returns the handler state and the
`Result`. -/
def parse_ini_line (self : IniParser σ ε) (st : σ) (line : List Char) (lineno : Nat) :
    σ × Option (IniError ε) :=
  let line := trim_start line
  if line.isEmpty then (st, none)
  else
    let pr : List Char × List Char :=
      if is_char_boundary_one line then (line.take 1, line.drop 1) else ([], line)
    if pr.1 = [Char.ofNat 91] then
      match findChar (Char.ofNat 93) pr.2 with
      | some pos =>
        match self.handler.sec st (trim (pr.2.take pos)) with
        | Except.ok st2 => (st2, none)
        | Except.error e => (st, some (IniError.handler e))
      | none => (st, some (IniError.invalidLine lineno))
    else if pr.1 = [self.start_comment] then
      match self.handler.comment st (trim_start pr.2) with
      | Except.ok st2 => (st2, none)
      | Except.error e => (st, some (IniError.handler e))
    else
      match findChar (Char.ofNat 61) line with
      | some pos =>
        match self.handler.opt st (trim (line.take pos)) (trim ((line.drop pos).drop 1)) with
        | Except.ok st2 => (st2, none)
        | Except.error e => (st, some (IniError.handler e))
      | none => (st, some (IniError.invalidLine lineno))

/-- The loop body of `IniParser::parse_buffered`: `lineno` is the counter
value before the next line is read; each iteration increments it, reads one
`lines()` item, maps a read failure to `IniError::Io` and otherwise parses
the line with its trailing whitespace stripped, stopping at the first
error. -/
def parse_lines (self : IniParser σ ε) (st : σ) (lineno : Nat) :
    List (Except Unit (List Char)) → σ × Option (IniError ε)
  | [] => (st, none)
  | res :: input =>
    match res with
    | Except.ok line =>
      match parse_ini_line self st (trim_end line) (lineno + 1) with
      | (st2, none) => parse_lines self st2 (lineno + 1) input
      | (st2, some e) => (st2, some e)
    | Except.error _ => (st, some IniError.io)

/-- `IniParser::parse_buffered`: the counter starts at 0 and is incremented
once per line read, so the first line is line 1. -/
def parse_buffered (self : IniParser σ ε) (st : σ)
    (input : List (Except Unit (List Char))) : σ × Option (IniError ε) :=
  parse_lines self st 0 input

/-- One handler call as an observable event. -/
inductive Event where
  | sec (name : List Char)
  | opt (key value : List Char)
  | comment (text : List Char)
deriving DecidableEq

/-- The observing handler: records every call in order and never fails. -/
def traceHandler : IniHandler (List Event) Empty where
  sec := fun st name => Except.ok (st ++ [Event.sec name])
  opt := fun st key value => Except.ok (st ++ [Event.opt key value])
  comment := fun st text => Except.ok (st ++ [Event.comment text])

/-- A parser over the observing handler with comment character `sc`. -/
def traceParser (sc : Char) : IniParser (List Event) Empty :=
  with_start_comment traceHandler sc

/-- The handler calls a single already-trimmed line produces. -/
def lineEventsRaw (sc : Char) (l : List Char) : List Event :=
  (parse_ini_line (traceParser sc) [] l 1).1

/-- Whether a single already-trimmed line parses without a syntax error. -/
def lineOkRaw (sc : Char) (l : List Char) : Bool :=
  (parse_ini_line (traceParser sc) [] l 1).2.isNone

/-- The handler calls one raw input line produces (after the driver strips
trailing whitespace). -/
def lineEvents (sc : Char) (l : List Char) : List Event :=
  lineEventsRaw sc (trim_end l)

/-- Whether one raw input line parses without a syntax error. -/
def lineOk (sc : Char) (l : List Char) : Bool :=
  lineOkRaw sc (trim_end l)

/-- Outcome of dispatching one handler call: new state on success, old
state plus the wrapped handler error on failure. -/
def dispatch (st : σ) (r : Except ε σ) : σ × Option (IniError ε) :=
  match r with
  | Except.ok st2 => (st2, none)
  | Except.error e => (st, some (IniError.handler e))

/-- The first syntax-error position, as seen from counter value `n`. -/
def runErr (sc : Char) (n : Nat) : List (List Char) → Option (IniError Empty)
  | [] => none
  | l :: ls => if lineOk sc l then runErr sc (n + 1) ls else some (IniError.invalidLine (n + 1))

lemma dispatch_eq (st : σ) (r : Except ε σ) :
    (match r with
     | Except.ok st2 => (st2, (none : Option (IniError ε)))
     | Except.error e => (st, some (IniError.handler e))) = dispatch st r := by
  cases r <;> rfl

lemma trim_start_cons_of_not_ws {c : Char} (l : List Char)
    (hc : rustIsWhitespace c = false) : trim_start (c :: l) = c :: l := by
  simp [trim_start, List.dropWhile_cons, hc]

lemma trim_start_append_ws {ws : List Char} (l : List Char)
    (hws : ∀ c ∈ ws, rustIsWhitespace c = true) :
    trim_start (ws ++ l) = trim_start l := by
  induction ws with
  | nil => rfl
  | cons c cs ih =>
    have hc : rustIsWhitespace c = true := hws c (List.mem_cons_self c cs)
    simp only [List.cons_append, trim_start, List.dropWhile_cons, hc, if_pos]
    exact ih fun d hd => hws d (List.mem_cons_of_mem c hd)

lemma trim_start_idem (l : List Char) : trim_start (trim_start l) = trim_start l := by
  induction l with
  | nil => rfl
  | cons c cs ih =>
    by_cases hc : rustIsWhitespace c = true
    · simp [trim_start, List.dropWhile_cons, hc] at ih ⊢
      exact ih
    · simp only [Bool.not_eq_true] at hc
      rw [trim_start_cons_of_not_ws cs hc, trim_start_cons_of_not_ws cs hc]

lemma findChar_eq_none {c : Char} {l : List Char} (h : c ∉ l) : findChar c l = none := by
  induction l with
  | nil => rfl
  | cons x xs ih =>
    have hx : ¬x = c := fun he => h (he ▸ List.mem_cons_self x xs)
    simp only [findChar, if_neg hx, ih fun hm => h (List.mem_cons_of_mem x hm)]
    rfl

lemma findChar_append_cons {c : Char} {a : List Char} (b : List Char) (h : c ∉ a) :
    findChar c (a ++ c :: b) = some a.length := by
  induction a with
  | nil => simp [findChar]
  | cons x xs ih =>
    have hx : ¬x = c := fun he => h (he ▸ List.mem_cons_self x xs)
    have ih2 := ih fun hm => h (List.mem_cons_of_mem x hm)
    rw [List.cons_append, findChar, if_neg hx, ih2]
    rfl

lemma parse_line_blank (self : IniParser σ ε) (st : σ) (l : List Char) (n : Nat)
    (ht : trim_start l = []) : parse_ini_line self st l n = (st, none) := by
  simp [parse_ini_line, ht]

lemma parse_line_sec_found (self : IniParser σ ε) (st : σ) (l r : List Char) (n pos : Nat)
    (ht : trim_start l = Char.ofNat 91 :: r)
    (hf : findChar (Char.ofNat 93) r = some pos) :
    parse_ini_line self st l n = dispatch st (self.handler.sec st (trim (r.take pos))) := by
  simp only [parse_ini_line, ht, is_char_boundary_one]
  simp [show ((Char.ofNat 91).toNat < 128) from by decide, hf]
  cases self.handler.sec st (trim (List.take pos r)) <;> rfl

lemma parse_line_sec_unclosed (self : IniParser σ ε) (st : σ) (l r : List Char) (n : Nat)
    (ht : trim_start l = Char.ofNat 91 :: r)
    (hf : findChar (Char.ofNat 93) r = none) :
    parse_ini_line self st l n = (st, some (IniError.invalidLine n)) := by
  simp only [parse_ini_line, ht, is_char_boundary_one]
  simp [show ((Char.ofNat 91).toNat < 128) from by decide, hf]

lemma parse_line_comment (self : IniParser σ ε) (st : σ) (l r : List Char) (c : Char) (n : Nat)
    (ht : trim_start l = c :: r) (ha : c.toNat < 128) (h1 : c ≠ Char.ofNat 91)
    (h2 : c = self.start_comment) :
    parse_ini_line self st l n = dispatch st (self.handler.comment st (trim_start r)) := by
  have h1' : ¬([c] = [Char.ofNat 91]) := by simpa using h1
  simp only [parse_ini_line, ht, is_char_boundary_one]
  simp [ha, h1', ← h2]
  cases self.handler.comment st (trim_start r) <;> rfl

lemma parse_line_opt_found (self : IniParser σ ε) (st : σ) (l r : List Char) (c : Char)
    (n pos : Nat) (ht : trim_start l = c :: r) (h1 : c ≠ Char.ofNat 91)
    (h2 : c.toNat < 128 → c ≠ self.start_comment)
    (hf : findChar (Char.ofNat 61) (c :: r) = some pos) :
    parse_ini_line self st l n
      = dispatch st (self.handler.opt st (trim ((c :: r).take pos))
          (trim (((c :: r).drop pos).drop 1))) := by
  have h1' : ¬([c] = [Char.ofNat 91]) := by simpa using h1
  by_cases ha : c.toNat < 128
  · have h2' : ¬([c] = [self.start_comment]) := by simpa using h2 ha
    simp only [parse_ini_line, ht, is_char_boundary_one]
    simp [ha, h1', h2', hf]
    cases self.handler.opt st (trim (List.take pos (c :: r)))
      (trim (List.drop 1 (List.drop pos (c :: r)))) <;> rfl
  · simp only [parse_ini_line, ht, is_char_boundary_one]
    simp [ha, hf]
    cases self.handler.opt st (trim (List.take pos (c :: r)))
      (trim (List.drop 1 (List.drop pos (c :: r)))) <;> rfl

lemma parse_line_opt_missing (self : IniParser σ ε) (st : σ) (l r : List Char) (c : Char)
    (n : Nat) (ht : trim_start l = c :: r) (h1 : c ≠ Char.ofNat 91)
    (h2 : c.toNat < 128 → c ≠ self.start_comment)
    (hf : findChar (Char.ofNat 61) (c :: r) = none) :
    parse_ini_line self st l n = (st, some (IniError.invalidLine n)) := by
  have h1' : ¬([c] = [Char.ofNat 91]) := by simpa using h1
  by_cases ha : c.toNat < 128
  · have h2' : ¬([c] = [self.start_comment]) := by simpa using h2 ha
    simp only [parse_ini_line, ht, is_char_boundary_one]
    simp [ha, h1', h2', hf]
  · simp only [parse_ini_line, ht, is_char_boundary_one]
    simp [ha, hf]

lemma trace_line_master (sc : Char) (st : List Event) (l : List Char) (n : Nat) :
    parse_ini_line (traceParser sc) st l n
      = (st ++ lineEventsRaw sc l,
         if lineOkRaw sc l then none else some (IniError.invalidLine n)) := by
  rcases htk : trim_start l with _ | ⟨c, r⟩
  · rw [parse_line_blank _ _ _ _ htk, lineEventsRaw, lineOkRaw,
      parse_line_blank _ _ _ _ htk]
    simp
  · by_cases hc : c = Char.ofNat 91
    · subst hc
      rcases hff : findChar (Char.ofNat 93) r with _ | pos
      · rw [parse_line_sec_unclosed _ _ _ _ _ htk hff, lineEventsRaw, lineOkRaw,
          parse_line_sec_unclosed _ _ _ _ _ htk hff]
        simp
      · rw [parse_line_sec_found _ _ _ _ _ _ htk hff, lineEventsRaw, lineOkRaw,
          parse_line_sec_found _ _ _ _ _ _ htk hff]
        simp [dispatch, traceParser, with_start_comment, traceHandler]
    · by_cases hcs : c.toNat < 128 ∧ c = sc
      · rw [parse_line_comment _ _ _ _ _ _ htk hcs.1 hc hcs.2, lineEventsRaw, lineOkRaw,
          parse_line_comment _ _ _ _ _ _ htk hcs.1 hc hcs.2]
        simp [dispatch, traceParser, with_start_comment, traceHandler]
      · have h2 : c.toNat < 128 → c ≠ (traceParser sc).start_comment := by
          intro ha he
          exact hcs ⟨ha, he⟩
        rcases hff : findChar (Char.ofNat 61) (c :: r) with _ | pos
        · rw [parse_line_opt_missing _ _ _ _ _ _ htk hc h2 hff, lineEventsRaw, lineOkRaw,
            parse_line_opt_missing _ _ _ _ _ _ htk hc h2 hff]
          simp
        · rw [parse_line_opt_found _ _ _ _ _ _ _ htk hc h2 hff, lineEventsRaw, lineOkRaw,
            parse_line_opt_found _ _ _ _ _ _ _ htk hc h2 hff]
          simp [dispatch, traceParser, with_start_comment, traceHandler]

lemma trace_line_trichotomy (sc : Char) (l : List Char) :
    (trim_start l = [] ∧ lineEventsRaw sc l = [] ∧ lineOkRaw sc l = true)
    ∨ ((∃ e, lineEventsRaw sc l = [e]) ∧ lineOkRaw sc l = true ∧ trim_start l ≠ [])
    ∨ (lineEventsRaw sc l = [] ∧ lineOkRaw sc l = false ∧ trim_start l ≠ []) := by
  rcases htk : trim_start l with _ | ⟨c, r⟩
  · exact Or.inl ⟨rfl, by
      rw [lineEventsRaw, parse_line_blank _ _ _ _ htk], by
      rw [lineOkRaw, parse_line_blank _ _ _ _ htk]; rfl⟩
  · by_cases hc : c = Char.ofNat 91
    · subst hc
      rcases hff : findChar (Char.ofNat 93) r with _ | pos
      · refine Or.inr (Or.inr ⟨?_, ?_, List.cons_ne_nil _ _⟩)
        · rw [lineEventsRaw, parse_line_sec_unclosed _ _ _ _ _ htk hff]
        · rw [lineOkRaw, parse_line_sec_unclosed _ _ _ _ _ htk hff]; rfl
      · refine Or.inr (Or.inl ⟨⟨Event.sec (trim (r.take pos)), ?_⟩, ?_, List.cons_ne_nil _ _⟩)
        · rw [lineEventsRaw, parse_line_sec_found _ _ _ _ _ _ htk hff]
          simp [dispatch, traceParser, with_start_comment, traceHandler]
        · rw [lineOkRaw, parse_line_sec_found _ _ _ _ _ _ htk hff]; rfl
    · by_cases hcs : c.toNat < 128 ∧ c = sc
      · refine Or.inr (Or.inl ⟨⟨Event.comment (trim_start r), ?_⟩, ?_, List.cons_ne_nil _ _⟩)
        · rw [lineEventsRaw, parse_line_comment _ _ _ _ _ _ htk hcs.1 hc hcs.2]
          simp [dispatch, traceParser, with_start_comment, traceHandler]
        · rw [lineOkRaw, parse_line_comment _ _ _ _ _ _ htk hcs.1 hc hcs.2]; rfl
      · have h2 : c.toNat < 128 → c ≠ (traceParser sc).start_comment := by
          intro ha he
          exact hcs ⟨ha, he⟩
        rcases hff : findChar (Char.ofNat 61) (c :: r) with _ | pos
        · refine Or.inr (Or.inr ⟨?_, ?_, List.cons_ne_nil _ _⟩)
          · rw [lineEventsRaw, parse_line_opt_missing _ _ _ _ _ _ htk hc h2 hff]
          · rw [lineOkRaw, parse_line_opt_missing _ _ _ _ _ _ htk hc h2 hff]; rfl
        · refine Or.inr (Or.inl ⟨⟨Event.opt (trim ((c :: r).take pos))
            (trim (((c :: r).drop pos).drop 1)), ?_⟩, ?_, List.cons_ne_nil _ _⟩)
          · rw [lineEventsRaw, parse_line_opt_found _ _ _ _ _ _ _ htk hc h2 hff]
            simp [dispatch, traceParser, with_start_comment, traceHandler]
          · rw [lineOkRaw, parse_line_opt_found _ _ _ _ _ _ _ htk hc h2 hff]; rfl

lemma parse_lines_append (self : IniParser σ ε) (xs ys : List (Except Unit (List Char))) :
    ∀ (st : σ) (n : Nat),
      parse_lines self st n (xs ++ ys)
        = match parse_lines self st n xs with
          | (st2, none) => parse_lines self st2 (n + xs.length) ys
          | (st2, some e) => (st2, some e) := by
  induction xs with
  | nil => intro st n; simp [parse_lines]
  | cons res xs ih =>
    intro st n
    rcases res with u | line
    · simp [parse_lines]
    · rw [List.cons_append, parse_lines, parse_lines]
      rcases hpl : parse_ini_line self st (trim_end line) (n + 1) with ⟨st2, err⟩
      rcases err with _ | e
      · dsimp only
        rw [ih st2 (n + 1)]
        have harith : n + 1 + xs.length = n + (xs.length + 1) := by omega
        rw [harith]
        rfl
      · rfl

lemma trace_run (sc : Char) (lines : List (List Char)) :
    ∀ (st : List Event) (n : Nat),
      parse_lines (traceParser sc) st n (lines.map Except.ok)
        = (st ++ ((lines.takeWhile (lineOk sc)).map (lineEvents sc)).flatten,
           runErr sc n lines) := by
  induction lines with
  | nil => intro st n; simp [parse_lines, runErr]
  | cons l ls ih =>
    intro st n
    rw [List.map_cons, parse_lines, trace_line_master, runErr]
    by_cases hok : lineOk sc l = true
    · have hok' : lineOkRaw sc (trim_end l) = true := hok
      rw [hok']
      simp only [if_true]
      rw [ih (st ++ lineEventsRaw sc (trim_end l)) (n + 1)]
      rw [List.takeWhile_cons, hok]
      simp [lineEvents, hok, List.append_assoc]
    · have hok' : lineOkRaw sc (trim_end l) = false := by
        rw [← Bool.not_eq_true]
        exact hok
      rw [hok']
      simp only [Bool.false_eq_true, if_false]
      rw [List.takeWhile_cons]
      have hev : lineEventsRaw sc (trim_end l) = [] := by
        rcases trace_line_trichotomy sc (trim_end l) with ⟨_, he, hb⟩ | ⟨_, hb, _⟩ | ⟨he, _, _⟩
        · rw [hok'] at hb
          cases hb
        · rw [hok'] at hb
          cases hb
        · exact he
      rw [hev]
      simp [hok]

lemma runErr_none_iff (sc : Char) (lines : List (List Char)) :
    ∀ n : Nat, runErr sc n lines = none ↔ ∀ l ∈ lines, lineOk sc l = true := by
  induction lines with
  | nil => intro n; simp [runErr]
  | cons l ls ih =>
    intro n
    rw [runErr]
    by_cases hok : lineOk sc l = true
    · rw [if_pos hok]
      rw [ih (n + 1)]
      simp [hok]
    · rw [if_neg hok]
      simp only [List.mem_cons]
      constructor
      · intro hsome
        cases hsome
      · intro hall
        exact absurd (hall l (Or.inl rfl)) hok

lemma runErr_first_bad (sc : Char) :
    ∀ (lines : List (List Char)) (k n : Nat), k < lines.length →
      (∀ i, i < k → lineOk sc (lines.getD i []) = true) →
      lineOk sc (lines.getD k []) = false →
      runErr sc n lines = some (IniError.invalidLine (n + k + 1)) := by
  intro lines
  induction lines with
  | nil => intro k n hk _ _; cases hk
  | cons l ls ih =>
    intro k n hk hpre hbad
    rcases k with _ | k
    · rw [runErr]
      have hl : lineOk sc l = false := hbad
      rw [hl]
      simp
    · have hl : lineOk sc l = true := hpre 0 (Nat.succ_pos k)
      rw [runErr, hl]
      simp only [if_true]
      have := ih k (n + 1) (Nat.lt_of_succ_lt_succ hk)
        (fun i hi => hpre (i + 1) (Nat.succ_lt_succ hi)) hbad
      rw [this]
      have harith : n + 1 + k + 1 = n + (k + 1) + 1 := by omega
      rw [harith]

lemma trace_lines_natural (sc : Char) (input : List (Except Unit (List Char))) :
    ∀ (st : List Event) (n : Nat),
      parse_lines (traceParser sc) st n input
        = (st ++ (parse_lines (traceParser sc) [] n input).1,
           (parse_lines (traceParser sc) [] n input).2) := by
  induction input with
  | nil => intro st n; simp [parse_lines]
  | cons res rest ih =>
    intro st n
    rcases res with u | line
    · simp [parse_lines]
    · rw [parse_lines, parse_lines, trace_line_master, trace_line_master]
      by_cases hok : lineOkRaw sc (trim_end line) = true
      · rw [hok]
        simp only [if_true]
        rw [ih (st ++ lineEventsRaw sc (trim_end line)) (n + 1), List.nil_append,
          ih (lineEventsRaw sc (trim_end line)) (n + 1)]
        simp [List.append_assoc]
      · have hok' : lineOkRaw sc (trim_end line) = false := by
          rw [← Bool.not_eq_true]; exact hok
        rw [hok']
        simp

lemma flatten_events_length (sc : Char) :
    ∀ L : List (List Char), (∀ l ∈ L, lineOk sc l = true) →
      ((L.map (lineEvents sc)).flatten).length
        = (L.filter fun l => !(trim_start (trim_end l)).isEmpty).length := by
  intro L
  induction L with
  | nil => intro _; rfl
  | cons l ls ih =>
    intro hall
    have hok : lineOk sc l = true := hall l (List.mem_cons_self l ls)
    have ihl := ih fun x hx => hall x (List.mem_cons_of_mem l hx)
    rw [List.map_cons, List.flatten_cons, List.length_append, ihl, List.filter_cons]
    rcases trace_line_trichotomy sc (trim_end l) with ⟨hb, he, _⟩ | ⟨⟨e, he⟩, _, hb⟩ | ⟨_, hb, _⟩
    · have : (trim_start (trim_end l)).isEmpty = true := by rw [hb]; rfl
      rw [this]
      simp [lineEvents, he]
    · have : (trim_start (trim_end l)).isEmpty = false := by
        rcases h : trim_start (trim_end l) with _ | ⟨a, b⟩
        · exact absurd h hb
        · rfl
      rw [this]
      simp [lineEvents, he, Nat.add_comm]
    · rw [lineOk, hb] at hok
      cases hok

/-- C1: during a parse the driver makes exactly one handler call per
well-formed non-blank line preceding the first error (all such lines when no
error occurs), in input order, never more than one call per physical line,
and blank or whitespace-only lines produce no handler call and no error. -/
theorem C1_handler_call_discipline (sc : Char) (lines : List (List Char)) :
    (parse_buffered (traceParser sc) [] (lines.map Except.ok)).1
        = ((lines.takeWhile (lineOk sc)).map (lineEvents sc)).flatten
    ∧ (∀ l : List Char, (lineEvents sc l).length ≤ 1)
    ∧ (∀ l : List Char, lineOk sc l = false → lineEvents sc l = [])
    ∧ (∀ l : List Char, trim_start (trim_end l) = [] →
        lineEvents sc l = [] ∧ lineOk sc l = true)
    ∧ (∀ l : List Char, lineOk sc l = true → trim_start (trim_end l) ≠ [] →
        (lineEvents sc l).length = 1)
    ∧ ((parse_buffered (traceParser sc) [] (lines.map Except.ok)).2 = none
        ↔ ∀ l ∈ lines, lineOk sc l = true)
    ∧ (parse_buffered (traceParser sc) [] (lines.map Except.ok)).1.length
        = ((lines.takeWhile (lineOk sc)).filter
            fun l => !(trim_start (trim_end l)).isEmpty).length := by
  have hrun := trace_run sc lines [] 0
  rw [parse_buffered, hrun]
  refine ⟨by simp, ?_, ?_, ?_, ?_, ?_, ?_⟩
  · intro l
    rcases trace_line_trichotomy sc (trim_end l) with ⟨_, he, _⟩ | ⟨⟨e, he⟩, _, _⟩ | ⟨he, _, _⟩ <;>
      simp [lineEvents, he]
  · intro l hbad
    rcases trace_line_trichotomy sc (trim_end l) with ⟨_, he, hb⟩ | ⟨_, hb, _⟩ | ⟨he, _, _⟩
    · rw [lineOk, hb] at hbad; cases hbad
    · rw [lineOk, hb] at hbad; cases hbad
    · exact he
  · intro l hblank
    rcases trace_line_trichotomy sc (trim_end l) with ⟨_, he, hb⟩ | ⟨_, _, hb⟩ | ⟨_, hb, hc⟩
    · exact ⟨he, hb⟩
    · exact absurd hblank hb
    · exact absurd hblank hc
  · intro l hok hnb
    rcases trace_line_trichotomy sc (trim_end l) with ⟨hb, _, _⟩ | ⟨⟨e, he⟩, _, _⟩ | ⟨_, hb, _⟩
    · exact absurd hb hnb
    · simp [lineEvents, he]
    · rw [lineOk, hb] at hok; cases hok
  · exact runErr_none_iff sc lines 0
  · have := flatten_events_length sc (lines.takeWhile (lineOk sc))
      fun l hl => List.mem_takeWhile_imp hl
    simpa using this

/-- Witness for C1 at the repository's own valid example file. -/
theorem C1_witness :
    (parse_buffered (traceParser (Char.ofNat 59)) []
        ([['a', '=', 'b'], [' '], ['[', 's', ']']].map Except.ok)).1
      = [Event.opt ['a'] ['b'], Event.sec ['s']]
    ∧ lineEvents (Char.ofNat 59) [' '] = []
    ∧ (lineEvents (Char.ofNat 59) ['a', '=', 'b']).length = 1 := by
  refine ⟨(C1_handler_call_discipline (Char.ofNat 59)
    [['a', '=', 'b'], [' '], ['[', 's', ']']]).1.trans (by decide), ?_, ?_⟩
  · exact ((C1_handler_call_discipline (Char.ofNat 59) []).2.2.2.1 [' '] (by decide)).1
  · exact (C1_handler_call_discipline (Char.ofNat 59) []).2.2.2.2.1 ['a', '=', 'b']
      (by decide) (by decide)

/-- C6: the line counter is 1-based and incremented once per line, so when
every line before position `k` (0-based) is well formed and the line at
position `k` is malformed, the parse fails with a syntax error carrying
line number `k + 1`. -/
theorem C6_line_number_attribution (sc : Char) (lines : List (List Char)) (k : Nat)
    (hk : k < lines.length)
    (hpre : ∀ i, i < k → lineOk sc (lines.getD i []) = true)
    (hbad : lineOk sc (lines.getD k []) = false) :
    (parse_buffered (traceParser sc) [] (lines.map Except.ok)).2
      = some (IniError.invalidLine (k + 1)) := by
  rw [parse_buffered, trace_run sc lines [] 0]
  have := runErr_first_bad sc lines k 0 hk hpre hbad
  rw [this]
  simp

/-- Witness for C6: an unclosed `[logging` on the third line reports
line 3 (the repository's `parse_invalid_section` test). -/
theorem C6_witness :
    (parse_buffered (traceParser (Char.ofNat 59)) []
        ([['n', 'a', 'm', 'e', ' ', '=', ' ', 'o', 'k'], [],
          ['[', 'l', 'o', 'g', 'g', 'i', 'n', 'g']].map Except.ok)).2
      = some (IniError.invalidLine 3) := by
  refine C6_line_number_attribution (Char.ofNat 59)
    [['n', 'a', 'm', 'e', ' ', '=', ' ', 'o', 'k'], [],
      ['[', 'l', 'o', 'g', 'g', 'i', 'n', 'g']] 2 (by decide) ?_ (by decide)
  intro i hi
  interval_cases i <;> decide

/-- C8: parsing is deterministic — starting two runs over the same input
and comment prefix from any two observing-handler states yields the same
emitted handler-call sequence and the same parse result. -/
theorem C8_determinism (sc : Char) (input : List (Except Unit (List Char)))
    (st1 st2 : List Event) :
    (parse_buffered (traceParser sc) st1 input).1.drop st1.length
        = (parse_buffered (traceParser sc) st2 input).1.drop st2.length
    ∧ (parse_buffered (traceParser sc) st1 input).2
        = (parse_buffered (traceParser sc) st2 input).2 := by
  rw [parse_buffered, parse_buffered, trace_lines_natural sc input st1 0,
    trace_lines_natural sc input st2 0]
  constructor
  · rw [List.drop_left, List.drop_left]
  · rfl

/-- C2: a line whose first non-whitespace character is `[` is a section
line when a `]` follows: the handler's section callback receives the
trimmed text strictly between `[` and the first `]`, and anything after
`]` is ignored; without a closing `]` the line fails with a syntax error
at the current line number and the handler is not called. -/
theorem C2_section_classification (h : IniHandler σ ε) (sc : Char) (st : σ) (n : Nat)
    (ws name junk rest : List Char)
    (hws : ∀ c ∈ ws, rustIsWhitespace c = true)
    (hwb : rustIsWhitespace (Char.ofNat 91) = false)
    (hname : Char.ofNat 93 ∉ name) (hrest : Char.ofNat 93 ∉ rest) :
    parse_ini_line (with_start_comment h sc) st
        (ws ++ Char.ofNat 91 :: (name ++ Char.ofNat 93 :: junk)) n
      = dispatch st (h.sec st (trim name))
    ∧ parse_ini_line (with_start_comment h sc) st (ws ++ Char.ofNat 91 :: rest) n
      = (st, some (IniError.invalidLine n)) := by
  constructor
  · have ht : trim_start (ws ++ Char.ofNat 91 :: (name ++ Char.ofNat 93 :: junk))
        = Char.ofNat 91 :: (name ++ Char.ofNat 93 :: junk) := by
      rw [trim_start_append_ws _ hws, trim_start_cons_of_not_ws _ hwb]
    rw [parse_line_sec_found (with_start_comment h sc) st _ _ n name.length ht
      (findChar_append_cons junk hname), List.take_left]
    rfl
  · have ht : trim_start (ws ++ Char.ofNat 91 :: rest) = Char.ofNat 91 :: rest := by
      rw [trim_start_append_ws _ hws, trim_start_cons_of_not_ws _ hwb]
    rw [parse_line_sec_unclosed (with_start_comment h sc) st _ _ n ht
      (findChar_eq_none hrest)]

/-- Witness for C2: `"  [ one ] rest"` calls `section("one")` and
`"[logging"` is a syntax error at its line number. -/
theorem C2_witness :
    parse_ini_line (with_start_comment traceHandler (Char.ofNat 59)) []
        ([' ', ' '] ++ Char.ofNat 91 :: ([' ', 'o', 'n', 'e', ' '] ++ Char.ofNat 93 :: [' ', 'r'])) 7
      = dispatch [] (traceHandler.sec [] (trim [' ', 'o', 'n', 'e', ' ']))
    ∧ parse_ini_line (with_start_comment traceHandler (Char.ofNat 59)) []
        ([' ', ' '] ++ Char.ofNat 91 :: ['l', 'o', 'g']) 7
      = ([], some (IniError.invalidLine 7)) := by
  exact C2_section_classification traceHandler (Char.ofNat 59) [] 7
    [' ', ' '] [' ', 'o', 'n', 'e', ' '] [' ', 'r'] ['l', 'o', 'g']
    (by decide) (by decide) (by decide) (by decide)

/-- C3: a line that opens with neither `[` nor the comment prefix is an
option line when it contains `=`: the handler's option callback receives
the trimmed text before the first `=` as key and the trimmed text after it
as value; with no `=` the line fails with a syntax error at the current
line number and the handler is not called. -/
theorem C3_option_classification (h : IniHandler σ ε) (sc c1 c2 : Char) (st : σ) (n : Nat)
    (l1 l2 key v : List Char)
    (h1 : trim_start l1 = key ++ Char.ofNat 61 :: v) (hk : Char.ofNat 61 ∉ key)
    (hhd1 : (key ++ Char.ofNat 61 :: v).head? = some c1)
    (hc1a : c1 ≠ Char.ofNat 91) (hc1b : c1 ≠ sc)
    (h2 : Char.ofNat 61 ∉ trim_start l2)
    (hhd2 : (trim_start l2).head? = some c2)
    (hc2a : c2 ≠ Char.ofNat 91) (hc2b : c2 ≠ sc) :
    parse_ini_line (with_start_comment h sc) st l1 n
      = dispatch st (h.opt st (trim key) (trim v))
    ∧ parse_ini_line (with_start_comment h sc) st l2 n
      = (st, some (IniError.invalidLine n)) := by
  constructor
  · rcases hsplit : key ++ Char.ofNat 61 :: v with _ | ⟨a, as⟩
    · exact absurd hsplit (List.append_ne_nil_of_right_ne_nil key (List.cons_ne_nil _ _))
    · rw [hsplit] at hhd1
      have ha : a = c1 := by
        simpa using hhd1
      subst ha
      have hf : findChar (Char.ofNat 61) (a :: as) = some key.length := by
        rw [← hsplit]
        exact findChar_append_cons v hk
      rw [parse_line_opt_found (with_start_comment h sc) st l1 as a n key.length
        (h1.trans hsplit) hc1a (fun _ => hc1b) hf, ← hsplit, List.take_left,
        List.drop_left, List.drop_one, List.tail_cons]
      rfl
  · rcases hsplit : trim_start l2 with _ | ⟨a, as⟩
    · rw [hsplit] at hhd2
      cases hhd2
    · rw [hsplit] at hhd2
      have ha : a = c2 := by
        simpa using hhd2
      subst ha
      have hf : findChar (Char.ofNat 61) (a :: as) = none := by
        rw [← hsplit]
        exact findChar_eq_none h2
      exact parse_line_opt_missing (with_start_comment h sc) st l2 as a n
        hsplit hc2a (fun _ => hc2b) hf

/-- Witness for C3: `"name = test suite"` calls
`option("name", "test suite")` and `"level error"` is a syntax error. -/
theorem C3_witness :
    parse_ini_line (with_start_comment traceHandler (Char.ofNat 59)) []
        ['n', 'a', 'm', 'e', ' ', '=', ' ', 't', 'e', 's', 't'] 4
      = dispatch [] (traceHandler.opt [] (trim ['n', 'a', 'm', 'e', ' '])
          (trim [' ', 't', 'e', 's', 't']))
    ∧ parse_ini_line (with_start_comment traceHandler (Char.ofNat 59)) []
        ['l', 'e', 'v', 'e', 'l', ' ', 'e', 'r', 'r', 'o', 'r'] 4
      = ([], some (IniError.invalidLine 4)) := by
  exact C3_option_classification traceHandler (Char.ofNat 59) 'n' 'l' [] 4
    ['n', 'a', 'm', 'e', ' ', '=', ' ', 't', 'e', 's', 't']
    ['l', 'e', 'v', 'e', 'l', ' ', 'e', 'r', 'r', 'o', 'r']
    ['n', 'a', 'm', 'e', ' '] [' ', 't', 'e', 's', 't']
    (by decide) (by decide) (by decide) (by decide) (by decide)
    (by decide) (by decide) (by decide) (by decide)

/-- C4 counterexample: with the multi-byte comment prefix `é` (U+00E9),
the line `é!` has its first non-whitespace character equal to the
configured prefix, is non-blank and does not start with `[`, yet the
comment callback is not invoked — the line is a syntax error instead,
because the one-byte prefix slice can never equal a multi-byte prefix. -/
theorem C4_comment_counterexample :
    (trim_start [Char.ofNat 233, Char.ofNat 33]).head? = some (Char.ofNat 233)
    ∧ parse_ini_line (traceParser (Char.ofNat 233)) [] [Char.ofNat 233, Char.ofNat 33] 1
        = ([], some (IniError.invalidLine 1))
    ∧ parse_ini_line (traceParser (Char.ofNat 233)) [] [Char.ofNat 233, Char.ofNat 33] 1
        ≠ ([Event.comment [Char.ofNat 33]], none) := by
  refine ⟨by decide, by decide, by decide⟩

/-- C4 amended: for every single-byte (ASCII) comment-prefix character
other than `[`, a line whose first non-whitespace character equals the
prefix has the handler's comment callback invoked with everything after
the prefix character, leading whitespace trimmed. -/
theorem C4_comment_classification (h : IniHandler σ ε) (sc : Char) (st : σ) (n : Nat)
    (line : List Char) (ha : sc.toNat < 128) (hb : sc ≠ Char.ofNat 91)
    (hd : (trim_start line).head? = some sc) :
    parse_ini_line (with_start_comment h sc) st line n
      = dispatch st (h.comment st (trim_start ((trim_start line).drop 1))) := by
  rcases hsplit : trim_start line with _ | ⟨a, as⟩
  · rw [hsplit] at hd
    cases hd
  · rw [hsplit] at hd
    have haeq : a = sc := by simpa using hd
    subst haeq
    rw [parse_line_comment (with_start_comment h a) st line as a n hsplit ha hb rfl,
      List.drop_one, List.tail_cons]
    rfl

/-- Witness for the amended C4: `"  ; comment"` calls
`comment("comment")` with the default prefix `;`. -/
theorem C4_witness :
    parse_ini_line (with_start_comment traceHandler (Char.ofNat 59)) []
        [' ', ' ', ';', ' ', 'c', 'o', 'm', 'm', 'e', 'n', 't'] 1
      = ([Event.comment ['c', 'o', 'm', 'm', 'e', 'n', 't']], none) := by
  exact (C4_comment_classification traceHandler (Char.ofNat 59) [] 1
    [' ', ' ', ';', ' ', 'c', 'o', 'm', 'm', 'e', 'n', 't']
    (by decide) (by decide) (by decide)).trans (by decide)

/-- C5: the first error of any kind ends the parse at once — an error
outcome is unchanged by any further input lines, a read failure maps to
`IniError.io` with no handler call, and a failing line's outcome (syntax
error or the handler's own error value, wrapped verbatim) is the outcome
of the whole remaining parse. -/
theorem C5_first_error_terminates (self : IniParser σ ε) (st st2 : σ) (n : Nat)
    (xs ys rest : List (Except Unit (List Char))) (line : List Char) (e : IniError ε) :
    (parse_lines self st n xs = (st2, some e) →
      parse_lines self st n (xs ++ ys) = (st2, some e))
    ∧ parse_lines self st n (Except.error () :: rest) = (st, some IniError.io)
    ∧ (parse_ini_line self st (trim_end line) (n + 1) = (st2, some e) →
      parse_lines self st n (Except.ok line :: rest) = (st2, some e)) := by
  refine ⟨?_, rfl, ?_⟩
  · intro hstop
    rw [parse_lines_append self xs ys st n, hstop]
  · intro hline
    rw [parse_lines, hline]

/-- Witness for C5: an unclosed section on the first line ends the parse
with `InvalidLine 1` no matter what follows, and a read failure yields
`Io`. -/
theorem C5_witness :
    parse_lines (traceParser (Char.ofNat 59)) [] 0 [Except.ok ['[', 'x']]
        = ([], some (IniError.invalidLine 1))
    ∧ parse_lines (traceParser (Char.ofNat 59)) [] 0
        ([Except.ok ['[', 'x']] ++ [Except.ok ['a', '=', 'b']])
        = ([], some (IniError.invalidLine 1))
    ∧ parse_lines (traceParser (Char.ofNat 59)) [] 0
        [Except.error (), Except.ok ['a', '=', 'b']]
        = ([], some IniError.io)
    ∧ parse_lines (traceParser (Char.ofNat 59)) [] 0
        [Except.ok ['[', 'x'], Except.ok ['a', '=', 'b']]
        = ([], some (IniError.invalidLine 1)) := by
  refine ⟨by decide, ?_, ?_, ?_⟩
  · exact (C5_first_error_terminates (traceParser (Char.ofNat 59)) [] [] 0
      [Except.ok ['[', 'x']] [Except.ok ['a', '=', 'b']] [] [] (IniError.invalidLine 1)).1
      (by decide)
  · exact (C5_first_error_terminates (traceParser (Char.ofNat 59)) [] [] 0
      [] [] [Except.ok ['a', '=', 'b']] [] (IniError.invalidLine 1)).2.1
  · exact (C5_first_error_terminates (traceParser (Char.ofNat 59)) [] [] 0
      [] [] [Except.ok ['a', '=', 'b']] ['[', 'x'] (IniError.invalidLine 1)).2.2
      (by decide)

/-- C7: a line whose first non-whitespace character is a multi-byte
scalar value is never split inside that character — the one-character
prefix checks against `[` and the comment prefix fail and the line falls
through to option handling — and non-ASCII section names, keys and values
reach the handler as their exact Unicode text (the repository's
`parse_unicode_ini` example). -/
theorem C7_unicode_safety (h : IniHandler σ ε) (sc c : Char) (st : σ) (n : Nat)
    (line : List Char) (hd : (trim_start line).head? = some c) (hc : 128 ≤ c.toNat) :
    parse_ini_line (with_start_comment h sc) st line n
      = (match findChar (Char.ofNat 61) (trim_start line) with
         | some pos => dispatch st (h.opt st (trim ((trim_start line).take pos))
             (trim (((trim_start line).drop pos).drop 1)))
         | none => (st, some (IniError.invalidLine n)))
    ∧ parse_buffered (traceParser (Char.ofNat 59)) []
        ([['[', 'ŝ', 'i', 'p', 'o', ']'],
          ['ĵ', 'u', 'r', 'n', 'a', 'l', 'o', ' ', '=', ' ', 'ĉ', 'i', 'r', 'k', 'a', 'ŭ']].map
          Except.ok)
      = ([Event.sec ['ŝ', 'i', 'p', 'o'],
          Event.opt ['ĵ', 'u', 'r', 'n', 'a', 'l', 'o'] ['ĉ', 'i', 'r', 'k', 'a', 'ŭ']], none) := by
  constructor
  · rcases hsplit : trim_start line with _ | ⟨a, as⟩
    · rw [hsplit] at hd
      cases hd
    · rw [hsplit] at hd
      have haeq : a = c := by simpa using hd
      subst haeq
      have h1 : a ≠ Char.ofNat 91 := by
        intro he
        rw [he] at hc
        exact absurd hc (by decide)
      have h2 : a.toNat < 128 → a ≠ (with_start_comment h sc).start_comment := by
        intro hlt
        omega
      rcases hf : findChar (Char.ofNat 61) (a :: as) with _ | pos
      · rw [parse_line_opt_missing (with_start_comment h sc) st line as a n hsplit h1 h2 hf]
      · rw [parse_line_opt_found (with_start_comment h sc) st line as a n pos hsplit h1 h2 hf]
        rfl
  · decide

/-- Witness for C7: with prefix `;`, the line `é!` (first character
multi-byte) falls through to option handling and, holding no `=`, is a
syntax error — no panic, no comment or section call. -/
theorem C7_witness :
    parse_ini_line (with_start_comment traceHandler (Char.ofNat 59)) [] ['é', '!'] 1
      = ([], some (IniError.invalidLine 1))
    ∧ parse_buffered (traceParser (Char.ofNat 59)) []
        ([['[', 'ŝ', 'i', 'p', 'o', ']'],
          ['ĵ', 'u', 'r', 'n', 'a', 'l', 'o', ' ', '=', ' ', 'ĉ', 'i', 'r', 'k', 'a', 'ŭ']].map
          Except.ok)
      = ([Event.sec ['ŝ', 'i', 'p', 'o'],
          Event.opt ['ĵ', 'u', 'r', 'n', 'a', 'l', 'o'] ['ĉ', 'i', 'r', 'k', 'a', 'ŭ']], none) := by
  constructor
  · exact ((C7_unicode_safety traceHandler (Char.ofNat 59) 'é' [] 1 ['é', '!']
      (by decide) (by decide)).1).trans (by decide)
  · exact (C7_unicode_safety traceHandler (Char.ofNat 59) 'é' [] 1 ['é', '!']
      (by decide) (by decide)).2

/-- C9: construction accepts `[` as the comment prefix and the section
check takes precedence: a line opening with `[` is still handled as a
section (or unclosed-section syntax error); the comment callback is never
reached for it. -/
theorem C9_section_precedence (h : IniHandler σ ε) (st : σ) (n : Nat) (line : List Char)
    (hd : (trim_start line).head? = some (Char.ofNat 91)) :
    (with_start_comment h (Char.ofNat 91)).start_comment = Char.ofNat 91
    ∧ parse_ini_line (with_start_comment h (Char.ofNat 91)) st line n
      = (match findChar (Char.ofNat 93) ((trim_start line).drop 1) with
         | some pos => dispatch st (h.sec st (trim (((trim_start line).drop 1).take pos)))
         | none => (st, some (IniError.invalidLine n))) := by
  refine ⟨rfl, ?_⟩
  rcases hsplit : trim_start line with _ | ⟨a, as⟩
  · rw [hsplit] at hd
    cases hd
  · rw [hsplit] at hd
    have haeq : a = Char.ofNat 91 := by simpa using hd
    subst haeq
    rw [List.drop_one, List.tail_cons]
    rcases hf : findChar (Char.ofNat 93) as with _ | pos
    · rw [parse_line_sec_unclosed (with_start_comment h (Char.ofNat 91)) st line as n
        hsplit hf]
    · rw [parse_line_sec_found (with_start_comment h (Char.ofNat 91)) st line as n pos
        hsplit hf]
      rfl

/-- Witness for C9: with comment prefix `[`, the line `[x] junk` still
calls `section("x")` rather than the comment callback. -/
theorem C9_witness :
    (with_start_comment traceHandler (Char.ofNat 91)).start_comment = Char.ofNat 91
    ∧ parse_ini_line (with_start_comment traceHandler (Char.ofNat 91)) []
        ['[', 'x', ']', ' ', 'j', 'u', 'n', 'k'] 2
      = ([Event.sec ['x']], none) := by
  refine ⟨(C9_section_precedence traceHandler [] 2
    ['[', 'x', ']', ' ', 'j', 'u', 'n', 'k'] (by decide)).1, ?_⟩
  exact ((C9_section_precedence traceHandler [] 2
    ['[', 'x', ']', ' ', 'j', 'u', 'n', 'k'] (by decide)).2).trans (by decide)

/-- C10: an option line with an empty key is accepted, not a syntax
error: a line whose first non-whitespace character is `=` calls the
option callback with the empty string as key and the trimmed text after
the first `=` as value (for any comment prefix other than `=`). -/
theorem C10_empty_key (h : IniHandler σ ε) (sc : Char) (st : σ) (n : Nat)
    (line v : List Char) (h1 : trim_start line = Char.ofNat 61 :: v)
    (hsc : sc ≠ Char.ofNat 61) :
    parse_ini_line (with_start_comment h sc) st line n
      = dispatch st (h.opt st [] (trim v)) := by
  have hf : findChar (Char.ofNat 61) (Char.ofNat 61 :: v) = some 0 := by
    simp [findChar]
  rw [parse_line_opt_found (with_start_comment h sc) st line v (Char.ofNat 61) n 0
    h1 (by decide) (fun _ => Ne.symm hsc) hf]
  rfl

/-- Witness for C10: `"= value"` calls `option("", "value")`. -/
theorem C10_witness :
    parse_ini_line (with_start_comment traceHandler (Char.ofNat 59)) []
        ['=', ' ', 'v', 'a', 'l', 'u', 'e'] 1
      = ([Event.opt [] ['v', 'a', 'l', 'u', 'e']], none) := by
  exact (C10_empty_key traceHandler (Char.ofNat 59) [] 1
    ['=', ' ', 'v', 'a', 'l', 'u', 'e'] [' ', 'v', 'a', 'l', 'u', 'e']
    (by decide) (by decide)).trans (by decide)
